import Mathlib

/-!
Verification of the live-room broadcast relay in `src/server.js`
(lines 19–57 and the health endpoint at lines 260–266).

The relay keeps a process-wide `liveConnections = new Set()` of websocket
handles.  On `connection` it adds the handle and sends it one welcome
message; on `message` it `JSON.parse`s the payload and, on success,
iterates the set sending the re-serialized value to every client whose
`readyState === WebSocket.OPEN`; on parse failure the `catch` only logs;
on `close` and on `error` it deletes the handle from the set.  The
health endpoint reports `liveConnections.size`.

Embedding choices, each tied to a line of the source:
* Connection handles are `Nat`.  A JS `Set` preserves insertion order and
  ignores re-insertion of a present element, so the active set is a
  duplicate-free `List Nat` with `setAdd` / `setDelete` mirroring
  `Set.prototype.add` / `Set.prototype.delete`.
* Message payloads are an inductive `Json` value.  `JSON.parse` is the
  JS builtin, external to this repository; its outcome is modelled as the
  `Option Json` carried by the message event: `some v` when the raw bytes
  parse to the structured value `v`, `none` when `JSON.parse` throws.
  The value broadcast by line 40 is `JSON.stringify(data)` of the parsed
  `data`, i.e. the same structured value `v`, so deliveries carry `Json`.
* `readyState` of each client at the moment of the fan-out (line 39) is a
  transport-owned snapshot `isOpen : Nat → Bool` carried by the event.
* A transport send failure on an `OPEN` socket is reported by the `ws`
  library asynchronously (error event / callback), never as a synchronous
  throw out of `client.send`, so a failing target does not break the
  `forEach` loop; it is modelled as a predicate `sendFails : Nat → Bool`:
  a failing target simply produces no delivery.
* Observable behaviour is the list `sent` of successful deliveries
  `(target, payload)`, in the order the sends happen.
-/

/-- JSON values, the structured data produced by `JSON.parse` and consumed
by `JSON.stringify`.  Numbers are kept abstract as integers; none of the
relay's behaviour inspects them. -/
inductive Json where
  | null : Json
  | bool (b : Bool) : Json
  | num (n : Int) : Json
  | str (s : String) : Json
  | arr (elems : List Json) : Json
  | obj (fields : List (String × Json)) : Json

/-- `Set.prototype.add` on an insertion-ordered duplicate-free list:
adding a present element is a no-op, otherwise the element goes to the
end (src/server.js line 23). -/
def setAdd (l : List Nat) (c : Nat) : List Nat :=
  if c ∈ l then l else l ++ [c]

/-- `Set.prototype.delete`: remove the element if present, no-op
otherwise (src/server.js lines 49 and 55). -/
def setDelete (l : List Nat) (c : Nat) : List Nat :=
  l.filter (fun x => x ≠ c)

/-- One successful transport delivery: which connection received which
structured value. -/
structure Delivery where
  target : Nat
  payload : Json

/-- Relay state: the `liveConnections` set (src/server.js line 20) plus
the observable log of deliveries made so far. -/
structure RelayState where
  liveConnections : List Nat
  sent : List Delivery

/-- The empty relay, as at process start: `new Set()` and nothing sent. -/
def initState : RelayState := ⟨[], []⟩

/-- `liveConnections.size`, reported by the `/api/health` endpoint
(src/server.js line 264). -/
def activeCount (s : RelayState) : Nat :=
  s.liveConnections.length

/-- The fixed system welcome payload of src/server.js lines 27–30. -/
def welcomeMessage : Json :=
  Json.obj [("name", Json.str "System"),
            ("text", Json.str "Welcome to the Live Room! You are now connected.")]

/-- `wss.on('connection')` body, src/server.js lines 22–30: add the new
handle to the set, then send it (and only it) the welcome message. -/
def onConnect (s : RelayState) (c : Nat) : RelayState :=
  { liveConnections := setAdd s.liveConnections c,
    sent := s.sent ++ [⟨c, welcomeMessage⟩] }

/-- The `liveConnections.forEach` fan-out of src/server.js lines 38–42:
every client in the set whose `readyState` is `OPEN` is sent the parsed
value; a client whose transport send fails yields no delivery but the
iteration continues (`ws` reports send errors asynchronously, not by a
synchronous throw). -/
def fanout (targets : List Nat) (isOpen sendFails : Nat → Bool) (data : Json) :
    List Delivery :=
  (targets.filter (fun c => isOpen c && !sendFails c)).map (fun c => ⟨c, data⟩)

/-- `ws.on('message')` body, src/server.js lines 32–46.  `sender` is the
`ws` the handler closure was registered on; the body never reads it.
`raw` is the outcome of `JSON.parse(message)`: `none` means the parse
threw, in which case the `catch` only logs and the state is untouched;
`some data` means the value `data` is broadcast to the whole set. -/
def onMessage (sender : Nat) (s : RelayState) (raw : Option Json)
    (isOpen sendFails : Nat → Bool) : RelayState :=
  match raw with
  | none => s
  | some data =>
      { s with sent := s.sent ++ fanout s.liveConnections isOpen sendFails data }

/-- `ws.on('close')` body, src/server.js lines 48–51: delete the handle
from the set. -/
def onClose (s : RelayState) (c : Nat) : RelayState :=
  { s with liveConnections := setDelete s.liveConnections c }

/-- `ws.on('error')` body, src/server.js lines 53–56: delete the handle
from the set. -/
def onError (s : RelayState) (c : Nat) : RelayState :=
  { s with liveConnections := setDelete s.liveConnections c }

/-- The transport notifications the relay reacts to.  A message event
carries the sending handle, the `JSON.parse` outcome of its raw payload,
and the transport's snapshot of which clients are `OPEN` and which sends
fail at that instant. -/
inductive Event where
  | connect (c : Nat) : Event
  | message (sender : Nat) (raw : Option Json)
      (isOpen sendFails : Nat → Bool) : Event
  | close (c : Nat) : Event
  | error (c : Nat) : Event

/-- Dispatch one event to the handler src/server.js registers for it. -/
def step (s : RelayState) : Event → RelayState
  | Event.connect c => onConnect s c
  | Event.message sender raw isOpen sendFails =>
      onMessage sender s raw isOpen sendFails
  | Event.close c => onClose s c
  | Event.error c => onError s c

/-- Run a sequence of events from a given state. -/
def processFrom (s : RelayState) (t : List Event) : RelayState :=
  t.foldl step s

/-- Run a sequence of events from process start. -/
def processTrace (t : List Event) : RelayState :=
  processFrom initState t

/-- The payloads delivered to connection `c`, in order. -/
def deliveredTo (log : List Delivery) (c : Nat) : List Json :=
  (log.filter (fun d => d.target = c)).map (fun d => d.payload)

/-- Number of connect events in a trace. -/
def countConnects (t : List Event) : Nat :=
  t.countP (fun e => match e with | Event.connect _ => true | _ => false)

/-- Number of disconnect/transport-error events in a trace. -/
def countRemovals (t : List Event) : Nat :=
  t.countP (fun e => match e with
    | Event.close _ => true
    | Event.error _ => true
    | _ => false)

/-- A trace is transport-realizable-and-fresh from state `s` when every
connect event delivers a handle not currently in the active set and every
close/error event reports a handle currently in the set.  (A real
transport can violate the second half: `ws` fires both `error` and
`close` for the same socket, producing two removal events for one
connection.) -/
def wfFrom (s : RelayState) : List Event → Bool
  | [] => true
  | e :: rest =>
    (match e with
     | Event.connect c => !(decide (c ∈ s.liveConnections))
     | Event.close c => decide (c ∈ s.liveConnections)
     | Event.error c => decide (c ∈ s.liveConnections)
     | Event.message _ _ _ _ => true) && wfFrom (step s e) rest

/-- A realizable trace on which `activeCount = connects − removals`
fails: connection 0's transport reports an error and then, as `ws`
always does after an error, also a close, so connection 0 is removed
twice.  Two connects, two removal events, yet connection 1 is still in
the set. -/
def doubleRemovalTrace : List Event :=
  [Event.connect 0, Event.connect 1, Event.error 0, Event.close 0]

/-- A two-member relay state used to instantiate the universally
quantified theorems at concrete inputs: connections 0 and 1 are in the
active set, each already welcomed. -/
def twoConnState : RelayState :=
  ⟨[0, 1], [⟨0, welcomeMessage⟩, ⟨1, welcomeMessage⟩]⟩

/-- A concrete trace: connection 0 joins, then a valid message arrives
from handle 1 (which is not in the active set), with every transport
open and no send failing. -/
def demoTrace : List Event :=
  [Event.connect 0,
   Event.message 1 (some (Json.str "x")) (fun _ => true) (fun _ => false)]

/-- A concrete well-formed trace mixing all four event kinds: two
connects, one broadcast, one disconnect. -/
def mixedTrace : List Event :=
  [Event.connect 0, Event.connect 1,
   Event.message 0 (some (Json.str "hi")) (fun _ => true) (fun _ => false),
   Event.close 1]

/-- Invariant: every connection's delivery log, if nonempty, starts with
the welcome message, and a connection currently in the active set has a
nonempty log starting with the welcome message. -/
def WelcomeFirst (s : RelayState) : Prop :=
  ∀ c, (c ∈ s.liveConnections →
          (deliveredTo s.sent c).head? = some welcomeMessage) ∧
       (deliveredTo s.sent c ≠ [] →
          (deliveredTo s.sent c).head? = some welcomeMessage)

/- ### Helper lemmas on the JS-set operations and the delivery log -/

theorem mem_setAdd {l : List Nat} {a c : Nat} :
    a ∈ setAdd l c ↔ a = c ∨ a ∈ l := by
  unfold setAdd
  by_cases h : c ∈ l
  · simp only [if_pos h]
    exact ⟨Or.inr, fun h' => h'.elim (fun e => e ▸ h) id⟩
  · simp [if_neg h, List.mem_append, or_comm]

theorem nodup_setAdd {l : List Nat} (h : l.Nodup) (c : Nat) :
    (setAdd l c).Nodup := by
  unfold setAdd
  by_cases hc : c ∈ l
  · simpa [if_pos hc]
  · rw [if_neg hc]
    simp [List.nodup_append, h, hc]

theorem nodup_setDelete {l : List Nat} (h : l.Nodup) (c : Nat) :
    (setDelete l c).Nodup :=
  h.filter _

theorem setDelete_of_not_mem {l : List Nat} {c : Nat} (h : c ∉ l) :
    setDelete l c = l := by
  unfold setDelete
  refine List.filter_eq_self.mpr fun x hx => ?_
  simp only [ne_eq, decide_eq_true_eq]
  exact fun hxc => h (hxc ▸ hx)

theorem not_mem_setDelete (l : List Nat) (c : Nat) : c ∉ setDelete l c := by
  unfold setDelete
  intro h
  have := List.of_mem_filter h
  simp at this

theorem setDelete_idem (l : List Nat) (c : Nat) :
    setDelete (setDelete l c) c = setDelete l c :=
  setDelete_of_not_mem (not_mem_setDelete l c)

theorem length_setAdd_of_not_mem {l : List Nat} {c : Nat} (h : c ∉ l) :
    (setAdd l c).length = l.length + 1 := by
  simp [setAdd, if_neg h]

theorem setDelete_cons (a c : Nat) (l : List Nat) :
    setDelete (a :: l) c =
      if a = c then setDelete l c else a :: setDelete l c := by
  by_cases h : a = c <;> simp [setDelete, List.filter_cons, h]

theorem length_setDelete_of_mem {l : List Nat} {c : Nat}
    (hn : l.Nodup) (hm : c ∈ l) :
    (setDelete l c).length + 1 = l.length := by
  induction l with
  | nil => cases hm
  | cons a l ih =>
    rw [List.nodup_cons] at hn
    rw [setDelete_cons]
    by_cases hac : a = c
    · subst hac
      rw [if_pos rfl, setDelete_of_not_mem hn.1]
      simp
    · rw [if_neg hac]
      have hml : c ∈ l := by
        rcases List.mem_cons.mp hm with h | h
        · exact absurd h.symm hac
        · exact h
      have := ih hn.2 hml
      simp only [List.length_cons]
      omega

theorem deliveredTo_append (x y : List Delivery) (c : Nat) :
    deliveredTo (x ++ y) c = deliveredTo x c ++ deliveredTo y c := by
  simp [deliveredTo]

theorem fanout_cons (a : Nat) (l : List Nat) (o f : Nat → Bool) (j : Json) :
    fanout (a :: l) o f j =
      if o a && !f a then Delivery.mk a j :: fanout l o f j
      else fanout l o f j := by
  by_cases h : (o a && !f a) = true <;> simp [fanout, List.filter_cons, h]

theorem deliveredTo_cons (d : Delivery) (log : List Delivery) (c : Nat) :
    deliveredTo (d :: log) c =
      if d.target = c then d.payload :: deliveredTo log c
      else deliveredTo log c := by
  by_cases h : d.target = c <;> simp [deliveredTo, List.filter_cons, h]

theorem deliveredTo_fanout (targets : List Nat) (o f : Nat → Bool) (j : Json)
    (c : Nat) (hn : targets.Nodup) :
    deliveredTo (fanout targets o f j) c =
      if c ∈ targets ∧ o c = true ∧ f c = false then [j] else [] := by
  induction targets with
  | nil => simp [fanout, deliveredTo]
  | cons a l ih =>
    rw [List.nodup_cons] at hn
    have ihl := ih hn.2
    rw [fanout_cons]
    by_cases hac : a = c
    · subst hac
      by_cases ho : o a = true <;> by_cases hf : f a = true <;>
        simp_all [deliveredTo_cons, hn.1]
    · have hca : ¬c = a := fun h => hac h.symm
      by_cases ho : o a = true <;> by_cases hf : f a = true <;>
        simp_all [deliveredTo_cons, hac, hca]

theorem deliveredTo_fanout_of_not_mem (targets : List Nat)
    (o f : Nat → Bool) (j : Json) (c : Nat) (hc : c ∉ targets) :
    deliveredTo (fanout targets o f j) c = [] := by
  induction targets with
  | nil => simp [fanout, deliveredTo]
  | cons a l ih =>
    have hac : ¬a = c := fun h => hc (h ▸ List.mem_cons_self a l)
    have hcl : c ∉ l := fun h => hc (List.mem_cons_of_mem a h)
    rw [fanout_cons]
    by_cases h : (o a && !f a) = true
    · rw [if_pos h, deliveredTo_cons]
      simp only [hac, if_neg]
      exact ih hcl
    · rw [if_neg h]
      exact ih hcl

theorem mem_of_mem_setDelete {l : List Nat} {c c' : Nat}
    (h : c ∈ setDelete l c') : c ∈ l :=
  List.mem_of_mem_filter h

theorem head?_append_of_ne_nil {α : Type} (x y : List α) (h : x ≠ []) :
    (x ++ y).head? = x.head? := by
  cases x with
  | nil => exact absurd rfl h
  | cons a l => rfl

/-- The message handler never touches `liveConnections`: on parse
failure it does nothing, on success it only appends deliveries. -/
theorem onMessage_liveConnections (sender : Nat) (s : RelayState)
    (raw : Option Json) (o f : Nat → Bool) :
    (onMessage sender s raw o f).liveConnections = s.liveConnections := by
  cases raw <;> rfl

/-- Every handler keeps the active set duplicate-free, as a JS `Set`
is. -/
theorem nodup_step (s : RelayState) (e : Event)
    (h : s.liveConnections.Nodup) : (step s e).liveConnections.Nodup := by
  cases e with
  | connect c => exact nodup_setAdd h c
  | message sender raw o f =>
      have hl : (step s (Event.message sender raw o f)).liveConnections =
          s.liveConnections := onMessage_liveConnections sender s raw o f
      rw [hl]; exact h
  | close c => exact nodup_setDelete h c
  | error c => exact nodup_setDelete h c

/-- Counting lemma behind the health-endpoint claim: along a
well-formed trace, final count plus removals equals initial count plus
connects. -/
theorem processFrom_count (t : List Event) : ∀ s : RelayState,
    s.liveConnections.Nodup → wfFrom s t = true →
    activeCount (processFrom s t) + countRemovals t =
      activeCount s + countConnects t := by
  induction t with
  | nil =>
    intro s _ _
    simp [processFrom, countConnects, countRemovals]
  | cons e t ih =>
    intro s hn hwf
    simp only [wfFrom, Bool.and_eq_true] at hwf
    obtain ⟨h1, h2⟩ := hwf
    have hstep : processFrom s (e :: t) = processFrom (step s e) t := rfl
    rw [hstep]
    have ihs := ih (step s e) (nodup_step s e hn) h2
    cases e with
    | connect c =>
      simp only [Bool.not_eq_true', decide_eq_false_iff_not] at h1
      have hlen : activeCount (step s (Event.connect c)) =
          activeCount s + 1 := by
        simp [step, onConnect, activeCount, length_setAdd_of_not_mem h1]
      simp [countConnects, countRemovals, List.countP_cons] at ihs ⊢
      omega
    | message sender raw o f =>
      have hlen : activeCount (step s (Event.message sender raw o f)) =
          activeCount s := by
        simp [step, activeCount, onMessage_liveConnections]
      simp [countConnects, countRemovals, List.countP_cons] at ihs ⊢
      omega
    | close c =>
      simp only [decide_eq_true_eq] at h1
      have hlen : activeCount (step s (Event.close c)) + 1 =
          activeCount s := by
        simpa [step, onClose, activeCount] using
          length_setDelete_of_mem hn h1
      simp [countConnects, countRemovals, List.countP_cons] at ihs ⊢
      omega
    | error c =>
      simp only [decide_eq_true_eq] at h1
      have hlen : activeCount (step s (Event.error c)) + 1 =
          activeCount s := by
        simpa [step, onError, activeCount] using
          length_setDelete_of_mem hn h1
      simp [countConnects, countRemovals, List.countP_cons] at ihs ⊢
      omega

/-- One event preserves the welcome-first invariant. -/
theorem welcomeFirst_step (s : RelayState) (e : Event)
    (h : WelcomeFirst s) : WelcomeFirst (step s e) := by
  cases e with
  | connect c' =>
    intro c
    have hsent : (step s (Event.connect c')).sent =
        s.sent ++ [⟨c', welcomeMessage⟩] := rfl
    have hset : (step s (Event.connect c')).liveConnections =
        setAdd s.liveConnections c' := rfl
    have hone : deliveredTo [Delivery.mk c' welcomeMessage] c =
        if c' = c then [welcomeMessage] else [] := by
      by_cases hcc : c' = c <;> simp [deliveredTo_cons, deliveredTo, hcc]
    constructor
    · intro hc
      rw [hsent, deliveredTo_append]
      rw [hset] at hc
      by_cases hnil : deliveredTo s.sent c = []
      · rw [hnil, List.nil_append]
        rcases mem_setAdd.mp hc with rfl | hold
        · simp [hone]
        · have := (h c).1 hold
          rw [hnil] at this
          cases this
      · rw [head?_append_of_ne_nil _ _ hnil]
        exact (h c).2 hnil
    · intro hne
      rw [hsent, deliveredTo_append] at hne ⊢
      by_cases hnil : deliveredTo s.sent c = []
      · rw [hnil, List.nil_append] at hne ⊢
        by_cases hcc : c' = c
        · rw [hone, if_pos hcc]
          rfl
        · rw [hone, if_neg hcc] at hne
          exact absurd rfl hne
      · rw [head?_append_of_ne_nil _ _ hnil]
        exact (h c).2 hnil
  | message sender raw o f =>
    cases raw with
    | none => exact h
    | some j =>
      intro c
      have hsent : (step s (Event.message sender (some j) o f)).sent =
          s.sent ++ fanout s.liveConnections o f j := rfl
      have hset : (step s (Event.message sender (some j) o f)).liveConnections =
          s.liveConnections := rfl
      constructor
      · intro hc
        rw [hset] at hc
        have h1 := (h c).1 hc
        have hnil : deliveredTo s.sent c ≠ [] := by
          intro he
          rw [he] at h1
          cases h1
        rw [hsent, deliveredTo_append, head?_append_of_ne_nil _ _ hnil]
        exact h1
      · intro hne
        rw [hsent, deliveredTo_append] at hne ⊢
        by_cases hnil : deliveredTo s.sent c = []
        · by_cases hcl : c ∈ s.liveConnections
          · have := (h c).1 hcl
            rw [hnil] at this
            cases this
          · rw [deliveredTo_fanout_of_not_mem _ _ _ _ _ hcl, hnil] at hne
            exact absurd rfl hne
        · rw [head?_append_of_ne_nil _ _ hnil]
          exact (h c).2 hnil
  | close c' =>
    intro c
    constructor
    · intro hc
      have : c ∈ s.liveConnections := mem_of_mem_setDelete hc
      exact (h c).1 this
    · exact (h c).2
  | error c' =>
    intro c
    constructor
    · intro hc
      have : c ∈ s.liveConnections := mem_of_mem_setDelete hc
      exact (h c).1 this
    · exact (h c).2

/-- The welcome-first invariant holds along every trace. -/
theorem welcomeFirst_processFrom (t : List Event) : ∀ s : RelayState,
    WelcomeFirst s → WelcomeFirst (processFrom s t) := by
  induction t with
  | nil => intro s h; exact h
  | cons e t ih => intro s h; exact ih (step s e) (welcomeFirst_step s e h)

/-- The empty relay satisfies the welcome-first invariant. -/
theorem welcomeFirst_init : WelcomeFirst initState := by
  intro c
  constructor
  · intro hc
    cases hc
  · intro h
    exact absurd rfl h

/- ### Claim theorems -/

/-- Claim C1: for every valid inbound message, every connection in the
active set whose transport state is OPEN at the moment of sending —
including the sender itself — receives exactly one copy of the message,
and a connection whose state is not OPEN (or that is not in the set)
receives nothing.  Stated with no send failures, as the claim speaks
only of transport state. -/
theorem relay_fanout_exactly_once (sender : Nat) (s : RelayState)
    (j : Json) (o : Nat → Bool) (c : Nat)
    (hn : s.liveConnections.Nodup) :
    deliveredTo (onMessage sender s (some j) o (fun _ => false)).sent c =
      deliveredTo s.sent c ++
        (if c ∈ s.liveConnections ∧ o c = true then [j] else []) := by
  have hsent : (onMessage sender s (some j) o (fun _ => false)).sent =
      s.sent ++ fanout s.liveConnections o (fun _ => false) j := rfl
  rw [hsent, deliveredTo_append, deliveredTo_fanout _ _ _ _ _ hn]
  simp

/-- Witness for C1: in a two-member room where both transports are open,
member 0 (also the sender) receives exactly one copy of its own
message. -/
theorem relay_fanout_exactly_once_witness :
    deliveredTo (onMessage 0 twoConnState (some (Json.str "hi"))
        (fun _ => true) (fun _ => false)).sent 0 =
      deliveredTo twoConnState.sent 0 ++
        (if 0 ∈ twoConnState.liveConnections ∧ (fun _ => true) 0 = true
         then [Json.str "hi"] else []) :=
  relay_fanout_exactly_once 0 twoConnState (Json.str "hi") (fun _ => true) 0
    (by decide)

/-- Claim C2: `onConnect` adds the new connection to the active set and
delivers exactly one welcome message — sender "System", fixed greeting
text — to that connection only; every other connection's delivery log is
untouched. -/
theorem relay_welcome_once (s : RelayState) (c : Nat) :
    (onConnect s c).liveConnections = setAdd s.liveConnections c ∧
    c ∈ (onConnect s c).liveConnections ∧
    deliveredTo (onConnect s c).sent c =
      deliveredTo s.sent c ++ [welcomeMessage] ∧
    ∀ d, d ≠ c → deliveredTo (onConnect s c).sent d = deliveredTo s.sent d := by
  refine ⟨rfl, ?_, ?_, ?_⟩
  · exact mem_setAdd.mpr (Or.inl rfl)
  · have hsent : (onConnect s c).sent = s.sent ++ [⟨c, welcomeMessage⟩] := rfl
    rw [hsent, deliveredTo_append]
    simp [deliveredTo_cons, deliveredTo]
  · intro d hd
    have hcd : ¬c = d := fun h => hd h.symm
    have hsent : (onConnect s c).sent = s.sent ++ [⟨c, welcomeMessage⟩] := rfl
    rw [hsent, deliveredTo_append]
    simp [deliveredTo_cons, deliveredTo, hcd]

/-- Witness for C2: connecting handle 0 to the empty relay welcomes it
once and delivers nothing to handle 1. -/
theorem relay_welcome_once_witness :
    (onConnect initState 0).liveConnections = setAdd initState.liveConnections 0 ∧
    0 ∈ (onConnect initState 0).liveConnections ∧
    deliveredTo (onConnect initState 0).sent 0 =
      deliveredTo initState.sent 0 ++ [welcomeMessage] ∧
    deliveredTo (onConnect initState 0).sent 1 = deliveredTo initState.sent 1 :=
  ⟨(relay_welcome_once initState 0).1,
   (relay_welcome_once initState 0).2.1,
   (relay_welcome_once initState 0).2.2.1,
   (relay_welcome_once initState 0).2.2.2 1 (by decide)⟩

/-- Claim C3: a payload that fails the JSON parse produces no forwarded
message and leaves the whole relay state — in particular the active set,
with the sender still in it — unchanged. -/
theorem relay_malformed_noop (sender : Nat) (s : RelayState)
    (o f : Nat → Bool) :
    onMessage sender s none o f = s := rfl

/-- Claim C4: a send failure on one fan-out target does not abort
delivery to the rest: with exactly one failing connection `fc`, every
other open member still receives the message, and the failing one
receives nothing. -/
theorem relay_send_failure_isolated (sender : Nat) (s : RelayState)
    (j : Json) (o : Nat → Bool) (fc c : Nat)
    (hn : s.liveConnections.Nodup) (hc : c ∈ s.liveConnections)
    (ho : o c = true) (hne : c ≠ fc) :
    deliveredTo (onMessage sender s (some j) o (fun x => x == fc)).sent c =
      deliveredTo s.sent c ++ [j] ∧
    deliveredTo (onMessage sender s (some j) o (fun x => x == fc)).sent fc =
      deliveredTo s.sent fc := by
  have hsent : (onMessage sender s (some j) o (fun x => x == fc)).sent =
      s.sent ++ fanout s.liveConnections o (fun x => x == fc) j := rfl
  constructor
  · rw [hsent, deliveredTo_append, deliveredTo_fanout _ _ _ _ _ hn]
    simp [hc, ho, hne]
  · rw [hsent, deliveredTo_append, deliveredTo_fanout _ _ _ _ _ hn]
    simp

/-- Witness for C4: in the two-member room, connection 1's transport
fails on send; connection 0 still receives the message and connection 1
receives nothing. -/
theorem relay_send_failure_isolated_witness :
    deliveredTo (onMessage 0 twoConnState (some (Json.str "hi"))
        (fun _ => true) (fun x => x == 1)).sent 0 =
      deliveredTo twoConnState.sent 0 ++ [Json.str "hi"] ∧
    deliveredTo (onMessage 0 twoConnState (some (Json.str "hi"))
        (fun _ => true) (fun x => x == 1)).sent 1 =
      deliveredTo twoConnState.sent 1 :=
  relay_send_failure_isolated 0 twoConnState (Json.str "hi") (fun _ => true)
    1 0 (by decide) (by decide) (by decide) (by decide)

/-- Counterexample to claim C5 as stated: on the realizable event
sequence connect 0, connect 1, error 0, close 0 (a `ws` socket that
errors fires both `error` and `close`), there are two connect events and
two removal events, so the claimed count is 0, but connection 1 is still
in the set and `activeCount` is 1. -/
theorem relay_count_formula_counterexample :
    activeCount (processTrace doubleRemovalTrace) ≠
      countConnects doubleRemovalTrace - countRemovals doubleRemovalTrace := by
  decide

/-- Claim C5 (amended): along any event sequence in which every connect
event brings a fresh handle and every disconnect/error event reports a
handle currently in the active set, `activeCount()` equals the number of
connect events minus the number of removal events — the difference never
goes below 0 because removals cannot outnumber connects — and message
events do not enter the formula at all. -/
theorem relay_count_accuracy (t : List Event)
    (h : wfFrom initState t = true) :
    activeCount (processTrace t) = countConnects t - countRemovals t ∧
    countRemovals t ≤ countConnects t := by
  have hc := processFrom_count t initState List.nodup_nil h
  have h0 : activeCount initState = 0 := rfl
  simp only [processTrace]
  omega

/-- Witness for C5: a well-formed trace with two connects, one broadcast
and one disconnect yields `activeCount` 1 = 2 − 1. -/
theorem relay_count_accuracy_witness :
    activeCount (processTrace mixedTrace) =
      countConnects mixedTrace - countRemovals mixedTrace ∧
    countRemovals mixedTrace ≤ countConnects mixedTrace :=
  relay_count_accuracy mixedTrace (by rfl)

/-- Claim C6: the close/error handlers are idempotent on the active set:
removing twice equals removing once, and removing a handle that is not
in the set leaves the state unchanged (and raises no error). -/
theorem relay_remove_idempotent (s : RelayState) (c : Nat) :
    onClose (onClose s c) c = onClose s c ∧
    onError (onError s c) c = onError s c ∧
    (c ∉ s.liveConnections → onClose s c = s ∧ onError s c = s) := by
  refine ⟨?_, ?_, ?_⟩
  · simp [onClose, setDelete_idem]
  · simp [onError, setDelete_idem]
  · intro h
    constructor
    · simp [onClose, setDelete_of_not_mem h]
    · simp [onError, setDelete_of_not_mem h]

/-- Witness for C6: removing the never-connected handle 7 from the
two-member room twice is the same as removing it once, and removing it
at all is a no-op. -/
theorem relay_remove_idempotent_witness :
    onClose (onClose twoConnState 7) 7 = onClose twoConnState 7 ∧
    onError (onError twoConnState 7) 7 = onError twoConnState 7 ∧
    (onClose twoConnState 7 = twoConnState ∧
     onError twoConnState 7 = twoConnState) :=
  ⟨(relay_remove_idempotent twoConnState 7).1,
   (relay_remove_idempotent twoConnState 7).2.1,
   (relay_remove_idempotent twoConnState 7).2.2 (by decide)⟩

/-- Claim C7: in every event sequence from process start, the first
payload a connection ever receives is its welcome message: no broadcast
triggered by another participant reaches it before its welcome send. -/
theorem relay_welcome_before_broadcast (t : List Event) (c : Nat)
    (h : deliveredTo (processTrace t).sent c ≠ []) :
    (deliveredTo (processTrace t).sent c).head? = some welcomeMessage :=
  ((welcomeFirst_processFrom t initState welcomeFirst_init) c).2 h

/-- Witness for C7: after connect 0 followed by a broadcast, the first
payload connection 0 received is the welcome message. -/
theorem relay_welcome_before_broadcast_witness :
    (deliveredTo (processTrace demoTrace).sent 0).head? =
      some welcomeMessage :=
  relay_welcome_before_broadcast demoTrace 0 (by
    rw [show deliveredTo (processTrace demoTrace).sent 0 =
        welcomeMessage :: [Json.str "x"] from rfl]
    exact List.cons_ne_nil _ _)

/-- Claim C8: the relay enforces no schema: any parsed value — object or
not, with or without `name`/`text` fields — is fanned out with its
content unmodified: every delivery produced by the broadcast carries
exactly the parsed value. -/
theorem relay_no_schema_passthrough (sender : Nat) (s : RelayState)
    (j : Json) (o f : Nat → Bool) :
    (onMessage sender s (some j) o f).sent =
      s.sent ++ fanout s.liveConnections o f j ∧
    ∀ d ∈ fanout s.liveConnections o f j, d.payload = j := by
  refine ⟨rfl, ?_⟩
  intro d hd
  unfold fanout at hd
  rcases List.mem_map.mp hd with ⟨x, _, rfl⟩
  rfl

/-- Witness for C8: the non-object payload `42` passes through the
two-member room unmodified. -/
theorem relay_no_schema_passthrough_witness :
    (onMessage 0 twoConnState (some (Json.num 42)) (fun _ => true)
        (fun _ => false)).sent =
      twoConnState.sent ++
        fanout twoConnState.liveConnections (fun _ => true) (fun _ => false)
          (Json.num 42) ∧
    (Delivery.mk 0 (Json.num 42)).payload = Json.num 42 :=
  ⟨(relay_no_schema_passthrough 0 twoConnState (Json.num 42) (fun _ => true)
      (fun _ => false)).1,
   (relay_no_schema_passthrough 0 twoConnState (Json.num 42) (fun _ => true)
      (fun _ => false)).2 (Delivery.mk 0 (Json.num 42))
     (by simp [fanout, twoConnState])⟩

/-- Claim C9: the message handler never mutates the active set, whether
the payload parses or not; in particular a target whose send fails is
not removed by the fan-out itself. -/
theorem relay_message_preserves_set (sender : Nat) (s : RelayState)
    (raw : Option Json) (o f : Nat → Bool) :
    (onMessage sender s raw o f).liveConnections = s.liveConnections := by
  cases raw <;> rfl

/-- Claim C10: the message handler never checks that the sender is a
member of the active set: the relay's reaction to a message is the same
for a removed sender as for any member sender, and a valid message from
a non-member is still fanned out to every open connection in the set. -/
theorem relay_sender_not_checked (sender member : Nat) (s : RelayState)
    (j : Json) (o f : Nat → Bool) (hs : sender ∉ s.liveConnections)
    (hn : s.liveConnections.Nodup) :
    onMessage sender s (some j) o f = onMessage member s (some j) o f ∧
    ∀ c, deliveredTo (onMessage sender s (some j) o f).sent c =
      deliveredTo s.sent c ++
        (if c ∈ s.liveConnections ∧ o c = true ∧ f c = false then [j]
         else []) := by
  refine ⟨rfl, fun c => ?_⟩
  have hsent : (onMessage sender s (some j) o f).sent =
      s.sent ++ fanout s.liveConnections o f j := rfl
  rw [hsent, deliveredTo_append, deliveredTo_fanout _ _ _ _ _ hn]

/-- Witness for C10: handle 5 was never added to the two-member room,
yet its message is fanned out exactly as if member 0 had sent it, and
member 1 receives it. -/
theorem relay_sender_not_checked_witness :
    onMessage 5 twoConnState (some Json.null) (fun _ => true)
        (fun _ => false) =
      onMessage 0 twoConnState (some Json.null) (fun _ => true)
        (fun _ => false) ∧
    deliveredTo (onMessage 5 twoConnState (some Json.null) (fun _ => true)
        (fun _ => false)).sent 1 =
      deliveredTo twoConnState.sent 1 ++
        (if 1 ∈ twoConnState.liveConnections ∧ (fun _ => true) 1 = true ∧
            (fun _ => false) 1 = false then [Json.null] else []) :=
  ⟨(relay_sender_not_checked 5 0 twoConnState Json.null (fun _ => true)
      (fun _ => false) (by decide) (by decide)).1,
   (relay_sender_not_checked 5 0 twoConnState Json.null (fun _ => true)
      (fun _ => false) (by decide) (by decide)).2 1⟩
